import Mathlib

/-!
# Task API (`src/server.js`): request handlers over a document collection

The five route handlers of `src/server.js` are embedded as pure functions
`Collection → request → Response × Collection`.  What the handlers take from
their surroundings is made explicit:

* the `tasks` collection is a list of documents in insertion order;
* `new Date()` is the argument `now` (milliseconds since the epoch);
* the identifier the driver generates in `insertOne` is the argument `insertedId`;
* `req.body` is the object produced by `express.json()`, `req.params.id` a
  string, `req.query.priority` and `req.query.completed` optional strings.

The collection primitives (`find`, `sort`, `findOne`, `insertOne`,
`findOneAndUpdate`, `deleteOne`) and the `ObjectId` constructor belong to the
MongoDB driver, not to this repository; they are modelled here for a
collection that is reachable and answers every call (no `StoreFailure`).
-/

namespace Todo

/-! ## Values and documents -/

/-- A store identifier: the 12 bytes of an `ObjectId`, read as one number. -/
structure ObjectId where
  value : Nat
deriving DecidableEq, Repr

/-- A value held in a request body or in a stored document.  Request bodies
carry only the JSON constructors; `date` and `oid` are produced by the server
(`new Date()`, `insertedId`).  Numbers are kept as integers: no handler
computes with them. -/
inductive Value where
  | null
  | bool (b : Bool)
  | num (n : Int)
  | str (s : String)
  | date (ms : Nat)
  | oid (id : ObjectId)
  | arr (items : List Value)
  | obj (fields : List (String × Value))

mutual
/-- Structural equality test on values. -/
def Value.beq : Value → Value → Bool
  | .null, .null => true
  | .bool a, .bool b => a == b
  | .num a, .num b => a == b
  | .str a, .str b => a == b
  | .date a, .date b => a == b
  | .oid a, .oid b => a == b
  | .arr xs, .arr ys => Value.beqList xs ys
  | .obj xs, .obj ys => Value.beqFields xs ys
  | _, _ => false
/-- Structural equality test on arrays of values. -/
def Value.beqList : List Value → List Value → Bool
  | [], [] => true
  | x :: xs, y :: ys => Value.beq x y && Value.beqList xs ys
  | _, _ => false
/-- Structural equality test on field lists. -/
def Value.beqFields : List (String × Value) → List (String × Value) → Bool
  | [], [] => true
  | (k, x) :: xs, (l, y) :: ys => k == l && Value.beq x y && Value.beqFields xs ys
  | _, _ => false
end

mutual
theorem Value.beq_iff : ∀ (a b : Value), Value.beq a b = true ↔ a = b
  | .null, b => by cases b <;> simp [Value.beq]
  | .bool a, b => by cases b <;> simp [Value.beq]
  | .num a, b => by cases b <;> simp [Value.beq]
  | .str a, b => by cases b <;> simp [Value.beq]
  | .date a, b => by cases b <;> simp [Value.beq]
  | .oid a, b => by cases b <;> simp [Value.beq]
  | .arr xs, b => by
      cases b <;> simp [Value.beq]
      exact Value.beqList_iff xs _
  | .obj xs, b => by
      cases b <;> simp [Value.beq]
      exact Value.beqFields_iff xs _
theorem Value.beqList_iff : ∀ (a b : List Value), Value.beqList a b = true ↔ a = b
  | [], b => by cases b <;> simp [Value.beqList]
  | x :: xs, b => by
      cases b with
      | nil => simp [Value.beqList]
      | cons y ys => simp [Value.beqList, Value.beq_iff x y, Value.beqList_iff xs ys]
theorem Value.beqFields_iff :
    ∀ (a b : List (String × Value)), Value.beqFields a b = true ↔ a = b
  | [], b => by cases b <;> simp [Value.beqFields]
  | (k, x) :: xs, b => by
      cases b with
      | nil => simp [Value.beqFields]
      | cons y ys =>
        obtain ⟨l, y⟩ := y
        simp [Value.beqFields, Value.beq_iff x y, Value.beqFields_iff xs ys, and_assoc]
end

instance : DecidableEq Value := fun a b =>
  decidable_of_iff (Value.beq a b = true) (Value.beq_iff a b)

/-- A JavaScript object / stored document: its fields in order. -/
abbrev Doc := List (String × Value)

/-- The `tasks` collection, in insertion order. -/
abbrev Collection := List Doc

/-- Property read `o.k`: `none` is JavaScript's `undefined`. -/
def getField : Doc → String → Option Value
  | [], _ => none
  | (k, v) :: rest, key => if k = key then some v else getField rest key

/-- Property write `o.k = v`, also the effect of `$set` on one field: an
existing field is overwritten in place, a new one is added at the end. -/
def setField : Doc → String → Value → Doc
  | [], key, v => [(key, v)]
  | (k, w) :: rest, key, v =>
      if k = key then (k, v) :: rest else (k, w) :: setField rest key v

/-- The guarded write `if (x !== undefined) o.k = x`. -/
def setIfDefined (o : Doc) (key : String) : Option Value → Doc
  | some v => setField o key v
  | none => o

/-- JavaScript truthiness of a possibly undefined value. -/
def truthy : Option Value → Bool
  | none => false
  | some .null => false
  | some (.bool b) => b
  | some (.num n) => n != 0
  | some (.str s) => s != ""
  | some _ => true

/-- The expression `x || d`. -/
def jsOr (x : Option Value) (d : Value) : Value :=
  match x with
  | some v => if truthy (some v) then v else d
  | none => d

/-! ## Identifiers -/

/-- Value of one hexadecimal digit. -/
def hexVal (c : Char) : Option Nat :=
  let n := c.toNat
  if 48 ≤ n ∧ n ≤ 57 then some (n - 48)
  else if 97 ≤ n ∧ n ≤ 102 then some (n - 87)
  else if 65 ≤ n ∧ n ≤ 70 then some (n - 55)
  else none

/-- Digits of a hexadecimal string, `none` when a character is no digit. -/
def hexDigits : List Char → Option (List Nat)
  | [] => some []
  | c :: cs =>
      match hexVal c, hexDigits cs with
      | some d, some ds => some (d :: ds)
      | _, _ => none

/-- The constructor `new ObjectId(s)` on a string: it accepts exactly the
strings of 24 hexadecimal digits and throws on every other string (`none`).
This is the constructor of the driver generation whose `findOneAndUpdate`
returns the document itself, which the update handler relies on. -/
def ObjectId.parse (s : String) : Option ObjectId :=
  if s.data.length = 24 then
    (hexDigits s.data).map fun ds => ⟨ds.foldl (fun acc d => 16 * acc + d) 0⟩
  else none

/-- Message of the error `new ObjectId(s)` throws on a malformed string. -/
def objectIdErrorMessage : String :=
  "input must be a 24 character hex string, 12 byte Uint8Array, or an integer"

/-! ## Collection primitives -/

/-- Does the document carry this `_id`? -/
def hasId (id : ObjectId) (d : Doc) : Bool :=
  match getField d "_id" with
  | some (.oid i) => i == id
  | _ => false

/-- Equality condition `{field: q}` of a query: a field matches when it equals
`q`, or when it is an array one of whose elements equals `q`; a missing field
matches only `null`. -/
def matchesEq (field : Option Value) (q : Value) : Bool :=
  match field with
  | none => q == .null
  | some (.arr items) => (Value.arr items == q) || items.any (fun x => x == q)
  | some v => v == q

/-- A document matches a query object when it matches each of its conditions. -/
def matchesFilter (filter : Doc) (d : Doc) : Bool :=
  filter.all fun c => matchesEq (getField d c.1) c.2

/-- The call `find(filter)`. -/
def find (c : Collection) (filter : Doc) : List Doc :=
  c.filter (matchesFilter filter)

/-- Position of a value's type in the store's sort order; a missing field sorts
as `null`. -/
def bsonRank : Option Value → Nat
  | none => 1
  | some .null => 1
  | some (.num _) => 2
  | some (.str _) => 3
  | some (.obj _) => 4
  | some (.arr _) => 5
  | some (.oid _) => 7
  | some (.bool _) => 8
  | some (.date _) => 9

/-- Sort order on field values: by type first, then by value for numbers,
strings, identifiers, booleans and dates.  Two objects or two arrays are left
in the order they come (the handlers never store either under `created_at`). -/
def bsonLe (a b : Option Value) : Bool :=
  if bsonRank a = bsonRank b then
    match a, b with
    | some (.num x), some (.num y) => decide (x ≤ y)
    | some (.str x), some (.str y) => !decide (y < x)
    | some (.oid x), some (.oid y) => decide (x.value ≤ y.value)
    | some (.bool x), some (.bool y) => !x || y
    | some (.date x), some (.date y) => decide (x ≤ y)
    | _, _ => true
  else decide (bsonRank a < bsonRank b)

/-- Comparator of `sort({ created_at: -1 })`: `a` may come before `b`. -/
def createdAtDesc (a b : Doc) : Bool :=
  bsonLe (getField b "created_at") (getField a "created_at")

/-- Insertion of one document into a list ordered by `before`. -/
def insertSorted (before : Doc → Doc → Bool) (x : Doc) : List Doc → List Doc
  | [] => [x]
  | y :: ys => if before x y then x :: y :: ys else y :: insertSorted before x ys

/-- The call `.sort(...)`, as an insertion sort. -/
def sortDocs (before : Doc → Doc → Bool) : List Doc → List Doc
  | [] => []
  | x :: xs => insertSorted before x (sortDocs before xs)

/-- The call `findOne({ _id: id })`. -/
def findOne (c : Collection) (id : ObjectId) : Option Doc :=
  c.find? (hasId id)

/-- One field after the other of a `$set` document is written. -/
def applySet (d : Doc) (upd : Doc) : Doc :=
  upd.foldl (fun acc kv => setField acc kv.1 kv.2) d

/-- The call `findOneAndUpdate({ _id: id }, { $set: upd }, { returnDocument: 'after' })`:
the first document with that `_id` is rewritten and returned; without a match
the result is `null` and nothing is written. -/
def findOneAndUpdate (c : Collection) (id : ObjectId) (upd : Doc) :
    Option Doc × Collection :=
  match c with
  | [] => (none, [])
  | d :: rest =>
      if hasId id d then (some (applySet d upd), applySet d upd :: rest)
      else
        let r := findOneAndUpdate rest id upd
        (r.1, d :: r.2)

/-- The call `deleteOne({ _id: id })`: `deletedCount` and the collection left. -/
def deleteOne (c : Collection) (id : ObjectId) : Nat × Collection :=
  match c with
  | [] => (0, [])
  | d :: rest =>
      if hasId id d then (1, rest)
      else
        let r := deleteOne rest id
        (r.1, d :: r.2)

/-- The call `insertOne(doc)`: the store writes `_id` first; a property that is
`undefined` is written as `null`. -/
def insertOne (c : Collection) (id : ObjectId) (doc : List (String × Option Value)) :
    Collection :=
  c ++ [("_id", Value.oid id) :: doc.map fun kv => (kv.1, kv.2.getD Value.null)]

/-! ## Responses -/

/-- An HTTP response: status code and JSON payload. -/
structure Response where
  status : Nat
  body : Value
deriving DecidableEq

/-- The payload `{ error: msg }`. -/
def errorBody (msg : String) : Value := .obj [("error", .str msg)]

/-- The reply `res.status(404).json({ error: 'Task not found' })`. -/
def notFound : Response := ⟨404, errorBody "Task not found"⟩

/-- The reply of a `catch` block: `res.status(500).json({ error: error.message })`. -/
def serverError (msg : String) : Response := ⟨500, errorBody msg⟩

/-- What `JSON.stringify` keeps of an object: the properties that are defined. -/
def definedFields : List (String × Option Value) → Doc
  | [] => []
  | (k, some v) :: rest => (k, v) :: definedFields rest
  | (_, none) :: rest => definedFields rest

/-! ## Route handlers -/

/-- The object `filter` of the list handler (server.js, lines 40-44):
`priority` is set when the parameter is a non-empty string, `completed` when the
parameter is present, to whether its text is "true". -/
def listFilter (priority completed : Option String) : Doc :=
  let filter : Doc := []
  let filter :=
    match priority with
    | some p => if p ≠ "" then setField filter "priority" (.str p) else filter
    | none => filter
  let filter :=
    match completed with
    | some s => setField filter "completed" (.bool (s == "true"))
    | none => filter
  filter

/-- Handler of `GET /api/tasks` (server.js, lines 38-55). -/
def getTasks (c : Collection) (priority completed : Option String) :
    Response × Collection :=
  let tasks := sortDocs createdAtDesc (find c (listFilter priority completed))
  (⟨200, .arr (tasks.map Value.obj)⟩, c)

/-- Handler of `GET /api/tasks/:id` (server.js, lines 58-72). -/
def getTaskById (c : Collection) (id : String) : Response × Collection :=
  match ObjectId.parse id with
  | none => (serverError objectIdErrorMessage, c)
  | some oid =>
      match findOne c oid with
      | none => (notFound, c)
      | some task => (⟨200, .obj task⟩, c)

/-- The object `newTask` of the create handler (server.js, lines 77-85). -/
def newTask (body : Doc) (now : Nat) : List (String × Option Value) :=
  [("title", getField body "title"),
   ("description", some (jsOr (getField body "description") (.str ""))),
   ("priority", some (jsOr (getField body "priority") (.str "medium"))),
   ("completed", some (.bool false)),
   ("tags", some (jsOr (getField body "tags") (.arr []))),
   ("due_date", some (jsOr (getField body "due_date") .null)),
   ("created_at", some (.date now))]

/-- Handler of `POST /api/tasks` (server.js, lines 75-96). -/
def postTask (c : Collection) (body : Doc) (insertedId : ObjectId) (now : Nat) :
    Response × Collection :=
  let t := newTask body now
  let c2 := insertOne c insertedId t
  (⟨201, .obj (("_id", .oid insertedId) :: definedFields t)⟩, c2)

/-- The object `updateData` of the update handler (server.js, lines 101-110). -/
def updateData (body : Doc) (now : Nat) : Doc :=
  let u : Doc := []
  let u := setIfDefined u "title" (getField body "title")
  let u := setIfDefined u "description" (getField body "description")
  let u := setIfDefined u "priority" (getField body "priority")
  let u := setIfDefined u "completed" (getField body "completed")
  let u := setIfDefined u "tags" (getField body "tags")
  let u := setIfDefined u "due_date" (getField body "due_date")
  setField u "updated_at" (.date now)

/-- Handler of `PUT /api/tasks/:id` (server.js, lines 99-126). -/
def putTask (c : Collection) (id : String) (body : Doc) (now : Nat) :
    Response × Collection :=
  let upd := updateData body now
  match ObjectId.parse id with
  | none => (serverError objectIdErrorMessage, c)
  | some oid =>
      match findOneAndUpdate c oid upd with
      | (none, c2) => (notFound, c2)
      | (some result, c2) => (⟨200, .obj result⟩, c2)

/-- Handler of `DELETE /api/tasks/:id` (server.js, lines 129-143). -/
def deleteTask (c : Collection) (id : String) : Response × Collection :=
  match ObjectId.parse id with
  | none => (serverError objectIdErrorMessage, c)
  | some oid =>
      let result := deleteOne c oid
      if result.1 = 0 then (notFound, result.2)
      else (⟨200, .obj [("message", .str "Task deleted successfully")]⟩, result.2)

/-! ## Vocabulary of the specification -/

/-- The fields an update request may set. -/
def updatableFields : List String :=
  ["title", "description", "priority", "completed", "tags", "due_date"]

/-- The fields a creation request may set. -/
def creationFields : List String :=
  ["title", "description", "priority", "tags", "due_date"]

/-- Text of the identifier of `sampleTask`. -/
def sampleIdText : String := "64b7f0c2a1d3e4f5a6b7c8d9"

/-- The identifier `sampleIdText` denotes. -/
def sampleId : ObjectId := ⟨31170871365409138629861165273⟩

/-- Text of an identifier no sample document carries. -/
def otherIdText : String := "000000000000000000000001"

/-- The identifier `otherIdText` denotes. -/
def otherId : ObjectId := ⟨1⟩

/-- A stored task, as the create handler writes it. -/
def sampleTask : Doc :=
  [("_id", .oid sampleId), ("title", .str "Buy milk"), ("description", .str ""),
   ("priority", .str "medium"), ("completed", .bool false), ("tags", .arr []),
   ("due_date", .null), ("created_at", .date 3)]

/-- A request body that carries `_id`, `created_at`, `updated_at` and a stray
key next to a title. -/
def intrusiveBody : Doc :=
  [("_id", .str "000000000000000000000001"), ("created_at", .str "1999-01-01"),
   ("updated_at", .str "1999-01-01"), ("owner", .str "mallory"),
   ("title", .str "Buy bread")]

/-- Does the value have the type the data model gives the field: `title` a
non-empty text, `description` a text, `priority` one of low, medium, high,
`completed` a boolean, `tags` a sequence of texts, `due_date` a date text or
null? -/
def wellTyped (f : String) (v : Value) : Bool :=
  if f = "title" then
    (match v with
     | .str t => t != ""
     | _ => false)
  else if f = "description" then
    (match v with
     | .str _ => true
     | _ => false)
  else if f = "priority" then
    (match v with
     | .str p => p = "low" || p = "medium" || p = "high"
     | _ => false)
  else if f = "completed" then
    (match v with
     | .bool _ => true
     | _ => false)
  else if f = "tags" then
    (match v with
     | .arr items => items.all fun x =>
         match x with
         | .str _ => true
         | _ => false
     | _ => false)
  else if f = "due_date" then
    (match v with
     | .str _ => true
     | .null => true
     | _ => false)
  else true

/-- A second stored task, of high priority and completed. -/
def otherTask : Doc :=
  [("_id", .oid otherId), ("title", .str "Pay rent"), ("description", .str "monthly"),
   ("priority", .str "high"), ("completed", .bool true), ("tags", .arr [.str "home"]),
   ("due_date", .str "2024-02-01"), ("created_at", .date 8), ("updated_at", .date 9)]

/-- Creation time of a stored task in milliseconds. -/
def createdMs (d : Doc) : Nat :=
  match getField d "created_at" with
  | some (.date ms) => ms
  | _ => 0

/-- Is the field an array? -/
def isArray : Option Value → Bool
  | some (.arr _) => true
  | _ => false

/-- Is the field a date? -/
def isDate : Option Value → Bool
  | some (.date _) => true
  | _ => false

/-- A stored document that the list handler reads as the data model types it,
for a given filter: `created_at` is a date, and the field a supplied constraint
is on (`priority`, `completed`) is no array. -/
def listableFor (priority : Option String) (completed : Option Bool) (d : Doc) : Bool :=
  isDate (getField d "created_at") &&
    (priority.isNone || !isArray (getField d "priority")) &&
    (completed.isNone || !isArray (getField d "completed"))

/-- A creation request whose priority is an array of two texts. -/
def arrayPriorityBody : Doc :=
  [("title", .str "x"), ("priority", .arr [.str "high", .str "low"])]

/-- The task the create handler stores for `arrayPriorityBody`. -/
def arrayPriorityTask : Doc :=
  [("_id", .oid sampleId), ("title", .str "x"), ("description", .str ""),
   ("priority", .arr [.str "high", .str "low"]), ("completed", .bool false),
   ("tags", .arr []), ("due_date", .null), ("created_at", .date 3)]

/-- Text of a boolean in the query string. -/
def boolText (b : Bool) : String := if b then "true" else "false"

/-- The constraints of a filter as the specification words them: the priority
of the task equals the given value, `completed` equals the given boolean, each
only when supplied. -/
def satisfiesFilter (priority : Option String) (completed : Option Bool) (d : Doc) : Bool :=
  (match priority with
   | some p => decide (getField d "priority" = some (.str p))
   | none => true) &&
  (match completed with
   | some b => decide (getField d "completed" = some (.bool b))
   | none => true)

/-- The priority of a stored task is one of the three enumerated values. -/
def priorityOk (d : Doc) : Bool :=
  getField d "priority" == some (.str "low") ||
  getField d "priority" == some (.str "medium") ||
  getField d "priority" == some (.str "high")

/-- No two documents of the collection carry the same `_id` (the store keeps a
unique index on it). -/
def uniqueIds (c : Collection) : Prop :=
  c.Pairwise fun a b => getField a "_id" ≠ getField b "_id"

/-- The document an update leaves in place of `old`. -/
def updatedDoc (old body : Doc) (now : Nat) : Doc :=
  applySet old (updateData body now)

/-- The document the create handler persists. -/
def createdDoc (body : Doc) (insertedId : ObjectId) (now : Nat) : Doc :=
  ("_id", Value.oid insertedId) ::
    (newTask body now).map fun kv => (kv.1, kv.2.getD Value.null)

/-! ## Objects: reads after writes -/

theorem getField_setField (d : Doc) (k k2 : String) (v : Value) :
    getField (setField d k v) k2 = if k = k2 then some v else getField d k2 := by
  induction d with
  | nil => simp [setField, getField]
  | cons kv rest ih =>
    obtain ⟨a, w⟩ := kv
    by_cases h : a = k
    · subst h
      by_cases h2 : a = k2 <;> simp [setField, getField, h2]
    · by_cases h2 : a = k2
      · subst h2
        simp [setField, getField, h, Ne.symm h]
      · simp [setField, getField, h, h2, ih]

theorem getField_setIfDefined (o : Doc) (k k2 : String) (x : Option Value) :
    getField (setIfDefined o k x) k2 =
      if k = k2 then (match x with | some v => some v | none => getField o k2)
      else getField o k2 := by
  cases x with
  | none => simp [setIfDefined]
  | some v => simp [setIfDefined, getField_setField]

theorem getField_eq_none_of_not_mem (d : Doc) (k : String)
    (h : k ∉ d.map Prod.fst) : getField d k = none := by
  induction d with
  | nil => rfl
  | cons kv rest ih =>
    obtain ⟨a, w⟩ := kv
    simp only [List.map_cons, List.mem_cons, not_or] at h
    simp [getField, Ne.symm h.1, ih h.2]

theorem getField_applySet (u d : Doc) (k : String) (hnd : (u.map Prod.fst).Nodup) :
    getField (applySet d u) k =
      match getField u k with
      | some v => some v
      | none => getField d k := by
  induction u generalizing d with
  | nil => simp [applySet, getField]
  | cons kv rest ih =>
    obtain ⟨a, w⟩ := kv
    simp only [List.map_cons, List.nodup_cons] at hnd
    have step : applySet d ((a, w) :: rest) = applySet (setField d a w) rest := rfl
    rw [step, ih _ hnd.2, getField_setField]
    by_cases h : a = k
    · subst h
      simp [getField, getField_eq_none_of_not_mem rest a hnd.1]
    · simp [getField, h]

theorem keys_setField (d : Doc) (k : String) (v : Value) :
    (setField d k v).map Prod.fst =
      if k ∈ d.map Prod.fst then d.map Prod.fst else d.map Prod.fst ++ [k] := by
  induction d with
  | nil => simp [setField]
  | cons kv rest ih =>
    obtain ⟨a, w⟩ := kv
    by_cases h : a = k
    · subst h
      simp [setField]
    · by_cases hm : k ∈ rest.map Prod.fst
      · simp [setField, h, Ne.symm h, ih, hm]
      · simp [setField, h, Ne.symm h, ih, hm]

theorem nodup_keys_setField (d : Doc) (k : String) (v : Value)
    (h : (d.map Prod.fst).Nodup) : ((setField d k v).map Prod.fst).Nodup := by
  rw [keys_setField]
  by_cases hm : k ∈ d.map Prod.fst
  · simpa [hm] using h
  · simp only [hm, if_false]
    exact List.Nodup.append h (List.nodup_singleton k) (by simpa using hm)

theorem nodup_keys_setIfDefined (d : Doc) (k : String) (x : Option Value)
    (h : (d.map Prod.fst).Nodup) : ((setIfDefined d k x).map Prod.fst).Nodup := by
  cases x with
  | none => simpa [setIfDefined] using h
  | some v => exact nodup_keys_setField d k v h

theorem nodup_keys_updateData (body : Doc) (now : Nat) :
    ((updateData body now).map Prod.fst).Nodup := by
  unfold updateData
  apply nodup_keys_setField
  repeat apply nodup_keys_setIfDefined
  exact List.nodup_nil

theorem getField_updateData (body : Doc) (now : Nat) (k : String) :
    getField (updateData body now) k =
      if k = "updated_at" then some (.date now)
      else if k ∈ updatableFields then getField body k else none := by
  unfold updateData
  simp only [getField_setField, getField_setIfDefined, updatableFields]
  by_cases h0 : "updated_at" = k
  · subst h0; simp
  by_cases h1 : "title" = k
  · subst h1; cases getField body "title" <;> simp [getField]
  by_cases h2 : "description" = k
  · subst h2; cases getField body "description" <;> simp [getField]
  by_cases h3 : "priority" = k
  · subst h3; cases getField body "priority" <;> simp [getField]
  by_cases h4 : "completed" = k
  · subst h4; cases getField body "completed" <;> simp [getField]
  by_cases h5 : "tags" = k
  · subst h5; cases getField body "tags" <;> simp [getField]
  by_cases h6 : "due_date" = k
  · subst h6; cases getField body "due_date" <;> simp [getField]
  simp [h0, h1, h2, h3, h4, h5, h6, Ne.symm h0, Ne.symm h1, Ne.symm h2, Ne.symm h3,
    Ne.symm h4, Ne.symm h5, Ne.symm h6, getField]

/-! ## Collection primitives: what a call returns and leaves behind -/

theorem hasId_of_findOne (c : Collection) (id : ObjectId) (d : Doc)
    (h : findOne c id = some d) : hasId id d = true := by
  unfold findOne at h
  exact List.find?_some h

theorem mem_of_findOne (c : Collection) (id : ObjectId) (d : Doc)
    (h : findOne c id = some d) : d ∈ c := by
  unfold findOne at h
  exact List.mem_of_find?_eq_some h

theorem findOne_cons (d : Doc) (c : Collection) (id : ObjectId) :
    findOne (d :: c) id = if hasId id d then some d else findOne c id := by
  unfold findOne
  by_cases h : hasId id d = true <;> simp [List.find?, h]

theorem hasId_applySet (id : ObjectId) (d u : Doc) (hnd : (u.map Prod.fst).Nodup)
    (hu : getField u "_id" = none) : hasId id (applySet d u) = hasId id d := by
  unfold hasId
  rw [getField_applySet u d "_id" hnd, hu]

theorem findOneAndUpdate_of_absent (c : Collection) (id : ObjectId) (u : Doc)
    (h : findOne c id = none) : findOneAndUpdate c id u = (none, c) := by
  induction c with
  | nil => rfl
  | cons d rest ih =>
    rw [findOne_cons] at h
    by_cases hd : hasId id d = true
    · simp [hd] at h
    · simp only [hd] at h
      simp [findOneAndUpdate, hd, ih h]

theorem findOneAndUpdate_of_present (c : Collection) (id : ObjectId) (u d : Doc)
    (h : findOne c id = some d) (hnd : (u.map Prod.fst).Nodup)
    (hu : getField u "_id" = none) :
    (findOneAndUpdate c id u).1 = some (applySet d u) ∧
      findOne (findOneAndUpdate c id u).2 id = some (applySet d u) := by
  induction c with
  | nil => simp [findOne] at h
  | cons x rest ih =>
    rw [findOne_cons] at h
    by_cases hx : hasId id x = true
    · simp only [hx, if_true, Option.some.injEq] at h
      subst h
      simp [findOneAndUpdate, hx, findOne_cons, hasId_applySet id x u hnd hu]
    · simp only [hx] at h
      have := ih h
      simp [findOneAndUpdate, hx, findOne_cons, this.1, this.2]

theorem mem_findOneAndUpdate (c : Collection) (id : ObjectId) (u x : Doc) :
    x ∈ (findOneAndUpdate c id u).2 →
      x ∈ c ∨ ∃ d ∈ c, hasId id d = true ∧ x = applySet d u := by
  induction c with
  | nil => intro hx; simp [findOneAndUpdate] at hx
  | cons y rest ih =>
    intro hx
    by_cases hy : hasId id y = true
    · simp only [findOneAndUpdate, hy, if_true, List.mem_cons] at hx
      rcases hx with hx | hx
      · exact Or.inr ⟨y, List.mem_cons_self _ _, hy, hx⟩
      · exact Or.inl (List.mem_cons_of_mem _ hx)
    · simp only [findOneAndUpdate, hy, Bool.false_eq_true, if_false, List.mem_cons] at hx
      rcases hx with hx | hx
      · exact Or.inl (hx ▸ List.mem_cons_self _ _)
      · rcases ih hx with h1 | ⟨d, hd, hid, he⟩
        · exact Or.inl (List.mem_cons_of_mem _ h1)
        · exact Or.inr ⟨d, List.mem_cons_of_mem _ hd, hid, he⟩

theorem deleteOne_of_absent (c : Collection) (id : ObjectId)
    (h : findOne c id = none) : deleteOne c id = (0, c) := by
  induction c with
  | nil => rfl
  | cons d rest ih =>
    rw [findOne_cons] at h
    by_cases hd : hasId id d = true
    · simp [hd] at h
    · simp only [hd] at h
      simp [deleteOne, hd, ih h]

theorem deleteOne_of_present (c : Collection) (id : ObjectId) (d : Doc)
    (h : findOne c id = some d) : deleteOne c id = (1, c.erase d) := by
  induction c with
  | nil => simp [findOne] at h
  | cons x rest ih =>
    rw [findOne_cons] at h
    by_cases hx : hasId id x = true
    · simp only [hx, if_true, Option.some.injEq] at h
      subst h
      simp [deleteOne, hx]
    · simp only [hx] at h
      have hne : x ≠ d := by
        intro e
        rw [e] at hx
        exact hx (hasId_of_findOne rest id d h)
      have hbeq : (x == d) = false := by simpa using hne
      simp [deleteOne, hx, ih h, List.erase_cons, hbeq]

theorem getField_id_of_hasId (id : ObjectId) (d : Doc) (h : hasId id d = true) :
    getField d "_id" = some (.oid id) := by
  unfold hasId at h
  split at h
  · rename_i i hi
    simp at h
    rw [hi, h]
  · simp at h

theorem findOne_erase_of_unique (c : Collection) (id : ObjectId) (d : Doc)
    (huniq : uniqueIds c) (h : findOne c id = some d) :
    findOne (c.erase d) id = none := by
  induction c with
  | nil => simp [findOne] at h
  | cons x rest ih =>
    have hp := List.pairwise_cons.mp huniq
    rw [findOne_cons] at h
    by_cases hx : hasId id x = true
    · simp only [hx, if_true, Option.some.injEq] at h
      subst h
      simp only [List.erase_cons_head]
      unfold findOne
      rw [List.find?_eq_none]
      intro y hy hyid
      exact hp.1 y hy ((getField_id_of_hasId id x hx).trans
        (getField_id_of_hasId id y hyid).symm)
    · simp only [hx] at h
      have hne : x ≠ d := by
        intro e
        rw [e] at hx
        exact hx (hasId_of_findOne rest id d h)
      have hbeq : (x == d) = false := by simpa using hne
      rw [List.erase_cons, hbeq]
      simp only [Bool.false_eq_true, if_false]
      rw [findOne_cons]
      simp [hx, ih hp.2 h]

/-! ## The update handler -/

theorem getField_updatedDoc (old body : Doc) (now : Nat) (k : String) :
    getField (updatedDoc old body now) k =
      if k = "updated_at" then some (.date now)
      else if k ∈ updatableFields then
        (match getField body k with
         | some v => some v
         | none => getField old k)
      else getField old k := by
  unfold updatedDoc
  rw [getField_applySet _ _ _ (nodup_keys_updateData body now), getField_updateData]
  by_cases h0 : k = "updated_at"
  · simp [h0]
  · by_cases h1 : k ∈ updatableFields <;> simp [h0, h1]

theorem putTask_of_present (c : Collection) (id : String) (oid : ObjectId)
    (old body : Doc) (now : Nat)
    (hid : ObjectId.parse id = some oid) (hold : findOne c oid = some old) :
    (putTask c id body now).1 = ⟨200, .obj (updatedDoc old body now)⟩ ∧
      findOne (putTask c id body now).2 oid = some (updatedDoc old body now) := by
  have hu : getField (updateData body now) "_id" = none := by
    rw [getField_updateData]; simp [updatableFields]
  have h := findOneAndUpdate_of_present c oid (updateData body now) old hold
    (nodup_keys_updateData body now) hu
  unfold putTask
  simp only [hid]
  rcases hres : findOneAndUpdate c oid (updateData body now) with ⟨r, c2⟩
  rw [hres] at h
  simp only at h
  obtain ⟨h1, h2⟩ := h
  subst h1
  exact ⟨rfl, h2⟩

theorem putTask_of_absent (c : Collection) (id : String) (oid : ObjectId)
    (body : Doc) (now : Nat)
    (hid : ObjectId.parse id = some oid) (habs : findOne c oid = none) :
    putTask c id body now = (notFound, c) := by
  unfold putTask
  simp only [hid, findOneAndUpdate_of_absent c oid _ habs]

theorem getTaskById_of_present (c : Collection) (id : String) (oid : ObjectId) (d : Doc)
    (hid : ObjectId.parse id = some oid) (h : findOne c oid = some d) :
    getTaskById c id = (⟨200, .obj d⟩, c) := by
  unfold getTaskById
  simp only [hid, h]

theorem getTaskById_of_absent (c : Collection) (id : String) (oid : ObjectId)
    (hid : ObjectId.parse id = some oid) (h : findOne c oid = none) :
    getTaskById c id = (notFound, c) := by
  unfold getTaskById
  simp only [hid, h]

theorem postTask_collection (c : Collection) (body : Doc) (insertedId : ObjectId)
    (now : Nat) :
    (postTask c body insertedId now).2 = c ++ [createdDoc body insertedId now] := rfl

theorem findOne_append_of_absent (c : Collection) (id : ObjectId) (d : Doc)
    (habs : findOne c id = none) (hd : hasId id d = true) :
    findOne (c ++ [d]) id = some d := by
  induction c with
  | nil => simp [findOne_cons, hd]
  | cons x rest ih =>
    rw [findOne_cons] at habs
    by_cases hx : hasId id x = true
    · simp [hx] at habs
    · simp only [hx] at habs
      simp only [List.cons_append, findOne_cons, hx]
      exact ih habs

theorem hasId_createdDoc (body : Doc) (insertedId : ObjectId) (now : Nat) :
    hasId insertedId (createdDoc body insertedId now) = true := by
  simp [hasId, createdDoc, getField]

theorem updateData_congr (body body2 : Doc) (now : Nat)
    (h : ∀ k ∈ updatableFields, getField body2 k = getField body k) :
    updateData body2 now = updateData body now := by
  unfold updateData
  rw [h "title" (by simp [updatableFields]), h "description" (by simp [updatableFields]),
    h "priority" (by simp [updatableFields]), h "completed" (by simp [updatableFields]),
    h "tags" (by simp [updatableFields]), h "due_date" (by simp [updatableFields])]

theorem newTask_congr (body body2 : Doc) (now : Nat)
    (h : ∀ k ∈ creationFields, getField body2 k = getField body k) :
    newTask body2 now = newTask body now := by
  unfold newTask
  rw [h "title" (by simp [creationFields]), h "description" (by simp [creationFields]),
    h "priority" (by simp [creationFields]), h "tags" (by simp [creationFields]),
    h "due_date" (by simp [creationFields])]

/-! ## Claims about update -/

/-- C3: update is a field-level merge.  For an existing task and any update
body the handler answers 200 with the stored task, in which every one of the six
updatable fields that the body supplies (an explicit null included) has the
supplied value, every one it does not supply has its previous value, and
`updated_at` is set.  In particular, after a create, an update with the body
`completed: true` makes get-by-id return the created task with `completed` true,
`updated_at` present and every other field as it was. -/
theorem update_is_field_level_merge
    (c : Collection) (id : String) (oid : ObjectId) (old body : Doc) (now : Nat)
    (c0 : Collection) (body0 : Doc) (t0 t1 : Nat)
    (hid : ObjectId.parse id = some oid)
    (hold : findOne c oid = some old)
    (hfresh : findOne c0 oid = none) :
    (∃ new : Doc,
        (putTask c id body now).1 = ⟨200, .obj new⟩ ∧
        findOne (putTask c id body now).2 oid = some new ∧
        (∀ f ∈ updatableFields, ∀ v, getField body f = some v → getField new f = some v) ∧
        (∀ f ∈ updatableFields, getField body f = none → getField new f = getField old f) ∧
        getField new "updated_at" = some (.date now)) ∧
    (∃ created task : Doc,
        (getTaskById (postTask c0 body0 oid t0).2 id).1 = ⟨200, .obj created⟩ ∧
        (getTaskById
            (putTask (postTask c0 body0 oid t0).2 id [("completed", .bool true)] t1).2
            id).1 = ⟨200, .obj task⟩ ∧
        getField task "completed" = some (.bool true) ∧
        getField task "updated_at" = some (.date t1) ∧
        ∀ k, k ≠ "completed" → k ≠ "updated_at" → getField task k = getField created k) := by
  constructor
  · obtain ⟨h1, h2⟩ := putTask_of_present c id oid old body now hid hold
    refine ⟨updatedDoc old body now, h1, h2, ?_, ?_, ?_⟩
    · intro f hf v hv
      have hne : f ≠ "updated_at" := by
        intro e; subst e; simp [updatableFields] at hf
      rw [getField_updatedDoc]
      simp [hne, hf, hv]
    · intro f hf hv
      have hne : f ≠ "updated_at" := by
        intro e; subst e; simp [updatableFields] at hf
      rw [getField_updatedDoc]
      simp [hne, hf, hv]
    · rw [getField_updatedDoc]; simp
  · have hc : findOne (postTask c0 body0 oid t0).2 oid = some (createdDoc body0 oid t0) := by
      rw [postTask_collection]
      exact findOne_append_of_absent c0 oid _ hfresh (hasId_createdDoc body0 oid t0)
    obtain ⟨_, h2⟩ := putTask_of_present (postTask c0 body0 oid t0).2 id oid
      (createdDoc body0 oid t0) [("completed", .bool true)] t1 hid hc
    refine ⟨createdDoc body0 oid t0,
      updatedDoc (createdDoc body0 oid t0) [("completed", .bool true)] t1, ?_, ?_, ?_, ?_, ?_⟩
    · rw [getTaskById_of_present _ id oid _ hid hc]
    · rw [getTaskById_of_present _ id oid _ hid h2]
    · rw [getField_updatedDoc]; simp [updatableFields, getField]
    · rw [getField_updatedDoc]; simp
    · intro k hk1 hk2
      rw [getField_updatedDoc]
      by_cases hm : k ∈ updatableFields
      · simp [hk2, hm, getField, Ne.symm hk1]
      · simp [hk2, hm]

/-- Witness of C3: a collection holding one task, updated with a new title, and
an empty collection into which a task is created and then completed. -/
theorem update_is_field_level_merge_witness :
    ObjectId.parse sampleIdText = some sampleId ∧
    findOne [sampleTask] sampleId = some sampleTask ∧
    findOne [] sampleId = none ∧
    ((∃ new : Doc,
        (putTask [sampleTask] sampleIdText [("title", .str "Buy bread")] 9).1
          = ⟨200, .obj new⟩ ∧
        findOne (putTask [sampleTask] sampleIdText [("title", .str "Buy bread")] 9).2
          sampleId = some new ∧
        (∀ f ∈ updatableFields, ∀ v,
          getField [("title", .str "Buy bread")] f = some v → getField new f = some v) ∧
        (∀ f ∈ updatableFields,
          getField [("title", .str "Buy bread")] f = none →
            getField new f = getField sampleTask f) ∧
        getField new "updated_at" = some (.date 9)) ∧
      (∃ created task : Doc,
        (getTaskById (postTask [] [("title", .str "Buy milk")] sampleId 3).2
            sampleIdText).1 = ⟨200, .obj created⟩ ∧
        (getTaskById
            (putTask (postTask [] [("title", .str "Buy milk")] sampleId 3).2 sampleIdText
              [("completed", .bool true)] 4).2
            sampleIdText).1 = ⟨200, .obj task⟩ ∧
        getField task "completed" = some (.bool true) ∧
        getField task "updated_at" = some (.date 4) ∧
        ∀ k, k ≠ "completed" → k ≠ "updated_at" →
          getField task k = getField created k)) :=
  ⟨by decide, by decide, by decide,
    update_is_field_level_merge [sampleTask] sampleIdText sampleId sampleTask
      [("title", .str "Buy bread")] 9 [] [("title", .str "Buy milk")] 3 4
      (by decide) (by decide) (by decide)⟩

/-- C7: an update addressed to a well-formed identifier that matches no task is
answered 404 with the error "Task not found", and the collection after the
request is the collection before it. -/
theorem update_of_absent_task_changes_nothing
    (c : Collection) (id : String) (oid : ObjectId) (body : Doc) (now : Nat)
    (hid : ObjectId.parse id = some oid)
    (habs : findOne c oid = none) :
    putTask c id body now = (⟨404, .obj [("error", .str "Task not found")]⟩, c) :=
  putTask_of_absent c id oid body now hid habs

/-- Witness of C7: the sample task is stored, another identifier is addressed. -/
theorem update_of_absent_task_changes_nothing_witness :
    ObjectId.parse otherIdText = some otherId ∧
    findOne [sampleTask] otherId = none ∧
    putTask [sampleTask] otherIdText [("completed", .bool true)] 9
      = (⟨404, .obj [("error", .str "Task not found")]⟩, [sampleTask]) :=
  ⟨by decide, by decide,
    update_of_absent_task_changes_nothing [sampleTask] otherIdText otherId
      [("completed", .bool true)] 9 (by decide) (by decide)⟩

/-- Counterexample to C9 as stated: the stored task has `completed` false; an
update whose body carries the string "yes" under `completed` is answered 200 and
the stored `completed` is then that string, not the previous value. -/
theorem mistyped_completed_replaces_stored_value :
    wellTyped "completed" (.str "yes") = false ∧
    (findOne [sampleTask] sampleId).bind (fun d => getField d "completed")
      = some (.bool false) ∧
    (putTask [sampleTask] sampleIdText [("completed", .str "yes")] 9).1.status = 200 ∧
    (findOne (putTask [sampleTask] sampleIdText [("completed", .str "yes")] 9).2
        sampleId).bind (fun d => getField d "completed")
      = some (.str "yes") := by
  decide

/-- C9, amended: a type-mismatched field is neither rejected nor treated as
absent.  For an existing task and any update body the handler answers 200 with
the stored task, and every one of the six fields that the body supplies is
stored with the supplied value, both when the value has the type the data model
gives the field and when it has not. -/
theorem update_stores_supplied_value_of_any_type
    (c : Collection) (id : String) (oid : ObjectId) (old body : Doc) (now : Nat)
    (hid : ObjectId.parse id = some oid)
    (hold : findOne c oid = some old) :
    (putTask c id body now).1.status = 200 ∧
    ∃ new : Doc,
      (putTask c id body now).1.body = .obj new ∧
      findOne (putTask c id body now).2 oid = some new ∧
      (∀ f ∈ updatableFields, ∀ v, getField body f = some v →
        wellTyped f v = false → getField new f = some v) ∧
      (∀ f ∈ updatableFields, ∀ v, getField body f = some v →
        wellTyped f v = true → getField new f = some v) := by
  obtain ⟨h1, h2⟩ := putTask_of_present c id oid old body now hid hold
  have key : ∀ f ∈ updatableFields, ∀ v, getField body f = some v →
      getField (updatedDoc old body now) f = some v := by
    intro f hf v hv
    have hne : f ≠ "updated_at" := by
      intro e; subst e; simp [updatableFields] at hf
    rw [getField_updatedDoc]
    simp [hne, hf, hv]
  refine ⟨by rw [h1], updatedDoc old body now, by rw [h1], h2, ?_, ?_⟩
  · intro f hf v hv _
    exact key f hf v hv
  · intro f hf v hv _
    exact key f hf v hv

/-- Witness of the amended C9: the sample task, updated with a mistyped
`completed` and a well-typed `title`. -/
theorem update_stores_supplied_value_of_any_type_witness :
    ObjectId.parse sampleIdText = some sampleId ∧
    findOne [sampleTask] sampleId = some sampleTask ∧
    ((putTask [sampleTask] sampleIdText
        [("completed", .str "yes"), ("title", .str "Buy bread")] 9).1.status = 200 ∧
    ∃ new : Doc,
      (putTask [sampleTask] sampleIdText
        [("completed", .str "yes"), ("title", .str "Buy bread")] 9).1.body = .obj new ∧
      findOne (putTask [sampleTask] sampleIdText
        [("completed", .str "yes"), ("title", .str "Buy bread")] 9).2 sampleId = some new ∧
      (∀ f ∈ updatableFields, ∀ v,
        getField [("completed", .str "yes"), ("title", .str "Buy bread")] f = some v →
        wellTyped f v = false → getField new f = some v) ∧
      (∀ f ∈ updatableFields, ∀ v,
        getField [("completed", .str "yes"), ("title", .str "Buy bread")] f = some v →
        wellTyped f v = true → getField new f = some v)) :=
  ⟨by decide, by decide,
    update_stores_supplied_value_of_any_type [sampleTask] sampleIdText sampleId sampleTask
      [("completed", .str "yes"), ("title", .str "Buy bread")] 9 (by decide) (by decide)⟩

/-- C10: identifier and creation time are immutable and unknown body fields are
ignored.  After a successful update with any body the stored task has the `_id`
and the `created_at` it had before, and every field other than the six updatable
ones and `updated_at` is as it was; the outcome depends on the body only through
the six updatable fields.  The document a create request persists has exactly the
fields `_id`, `title`, `description`, `priority`, `completed`, `tags`, `due_date`
and `created_at`, and the outcome depends on the body only through `title`,
`description`, `priority`, `tags` and `due_date`. -/
theorem unlisted_body_fields_are_ignored
    (c : Collection) (id : String) (oid : ObjectId) (old body : Doc) (now : Nat)
    (insertedId : ObjectId)
    (hid : ObjectId.parse id = some oid)
    (hold : findOne c oid = some old) :
    (∃ new : Doc,
        (putTask c id body now).1 = ⟨200, .obj new⟩ ∧
        findOne (putTask c id body now).2 oid = some new ∧
        getField new "_id" = getField old "_id" ∧
        getField new "created_at" = getField old "created_at" ∧
        (∀ k, k ∉ updatableFields → k ≠ "updated_at" → getField new k = getField old k)) ∧
    (∀ body2 : Doc, (∀ k ∈ updatableFields, getField body2 k = getField body k) →
        putTask c id body2 now = putTask c id body now) ∧
    (∃ doc : Doc,
        (postTask c body insertedId now).2 = c ++ [doc] ∧
        doc.map Prod.fst =
          ["_id", "title", "description", "priority", "completed", "tags", "due_date",
           "created_at"]) ∧
    (∀ body2 : Doc, (∀ k ∈ creationFields, getField body2 k = getField body k) →
        postTask c body2 insertedId now = postTask c body insertedId now) := by
  obtain ⟨h1, h2⟩ := putTask_of_present c id oid old body now hid hold
  refine ⟨⟨updatedDoc old body now, h1, h2, ?_, ?_, ?_⟩, ?_, ⟨_, postTask_collection _ _ _ _, ?_⟩, ?_⟩
  · rw [getField_updatedDoc]; simp [updatableFields]
  · rw [getField_updatedDoc]; simp [updatableFields]
  · intro k hk1 hk2
    rw [getField_updatedDoc]
    simp [hk1, hk2]
  · intro body2 h
    unfold putTask
    rw [updateData_congr body body2 now h]
  · simp [createdDoc, newTask]
  · intro body2 h
    unfold postTask
    rw [newTask_congr body body2 now h]

/-- Witness of C10: the sample task, updated and re-created with a body that
carries `_id`, `created_at` and a stray key next to a new title. -/
theorem unlisted_body_fields_are_ignored_witness :
    ObjectId.parse sampleIdText = some sampleId ∧
    findOne [sampleTask] sampleId = some sampleTask ∧
    ((∃ new : Doc,
        (putTask [sampleTask] sampleIdText intrusiveBody 9).1 = ⟨200, .obj new⟩ ∧
        findOne (putTask [sampleTask] sampleIdText intrusiveBody 9).2 sampleId = some new ∧
        getField new "_id" = getField sampleTask "_id" ∧
        getField new "created_at" = getField sampleTask "created_at" ∧
        (∀ k, k ∉ updatableFields → k ≠ "updated_at" →
          getField new k = getField sampleTask k)) ∧
    (∀ body2 : Doc, (∀ k ∈ updatableFields, getField body2 k = getField intrusiveBody k) →
        putTask [sampleTask] sampleIdText body2 9
          = putTask [sampleTask] sampleIdText intrusiveBody 9) ∧
    (∃ doc : Doc,
        (postTask [sampleTask] intrusiveBody otherId 9).2 = [sampleTask] ++ [doc] ∧
        doc.map Prod.fst =
          ["_id", "title", "description", "priority", "completed", "tags", "due_date",
           "created_at"]) ∧
    (∀ body2 : Doc, (∀ k ∈ creationFields, getField body2 k = getField intrusiveBody k) →
        postTask [sampleTask] body2 otherId 9
          = postTask [sampleTask] intrusiveBody otherId 9)) :=
  ⟨by decide, by decide,
    unlisted_body_fields_are_ignored [sampleTask] sampleIdText sampleId sampleTask
      intrusiveBody 9 otherId (by decide) (by decide)⟩

/-! ## Claims about identifiers and deletion -/

theorem getTaskById_of_malformed (c : Collection) (id : String)
    (hid : ObjectId.parse id = none) :
    getTaskById c id = (serverError objectIdErrorMessage, c) := by
  unfold getTaskById
  simp only [hid]

theorem putTask_of_malformed (c : Collection) (id : String) (body : Doc) (now : Nat)
    (hid : ObjectId.parse id = none) :
    putTask c id body now = (serverError objectIdErrorMessage, c) := by
  unfold putTask
  simp only [hid]

theorem deleteTask_of_malformed (c : Collection) (id : String)
    (hid : ObjectId.parse id = none) :
    deleteTask c id = (serverError objectIdErrorMessage, c) := by
  unfold deleteTask
  simp only [hid]

theorem deleteTask_of_absent (c : Collection) (id : String) (oid : ObjectId)
    (hid : ObjectId.parse id = some oid) (habs : findOne c oid = none) :
    deleteTask c id = (notFound, c) := by
  unfold deleteTask
  simp [hid, deleteOne_of_absent c oid habs]

theorem deleteTask_of_present (c : Collection) (id : String) (oid : ObjectId) (d : Doc)
    (hid : ObjectId.parse id = some oid) (h : findOne c oid = some d) :
    deleteTask c id
      = (⟨200, .obj [("message", .str "Task deleted successfully")]⟩, c.erase d) := by
  unfold deleteTask
  simp [hid, deleteOne_of_present c oid d h]

/-- Counterexample to C2 as stated: the string "not-an-id" is no well-formed
identifier, and get-by-id, update and delete each answer it with status 500,
which is not the 404 they give a well-formed identifier that matches no task. -/
theorem malformed_id_is_answered_500 :
    ObjectId.parse "not-an-id" = none ∧
    (getTaskById [sampleTask] "not-an-id").1.status = 500 ∧
    (putTask [sampleTask] "not-an-id" [("completed", .bool true)] 9).1.status = 500 ∧
    (deleteTask [sampleTask] "not-an-id").1.status = 500 ∧
    (getTaskById [sampleTask] otherIdText).1.status = 404 ∧
    (getTaskById [sampleTask] "not-an-id").1 ≠ (getTaskById [sampleTask] otherIdText).1 := by
  decide

/-- C2, amended: a malformed identifier is answered as a server error, not as
"not found".  For an id string that is no well-formed store identifier the
get-by-id, update and delete handlers each answer 500 with the message of the
identifier constructor and leave the collection as it was; for a well-formed
identifier that matches no task each answers 404 with "Task not found" and
leaves the collection as it was. -/
theorem malformed_id_500_absent_id_404
    (c : Collection) (bad good : String) (oid : ObjectId) (body : Doc) (now : Nat)
    (hbad : ObjectId.parse bad = none)
    (hgood : ObjectId.parse good = some oid)
    (habs : findOne c oid = none) :
    (getTaskById c bad = (⟨500, .obj [("error", .str objectIdErrorMessage)]⟩, c) ∧
      putTask c bad body now = (⟨500, .obj [("error", .str objectIdErrorMessage)]⟩, c) ∧
      deleteTask c bad = (⟨500, .obj [("error", .str objectIdErrorMessage)]⟩, c)) ∧
    (getTaskById c good = (⟨404, .obj [("error", .str "Task not found")]⟩, c) ∧
      putTask c good body now = (⟨404, .obj [("error", .str "Task not found")]⟩, c) ∧
      deleteTask c good = (⟨404, .obj [("error", .str "Task not found")]⟩, c)) :=
  ⟨⟨getTaskById_of_malformed c bad hbad, putTask_of_malformed c bad body now hbad,
      deleteTask_of_malformed c bad hbad⟩,
    ⟨getTaskById_of_absent c good oid hgood habs, putTask_of_absent c good oid body now hgood habs,
      deleteTask_of_absent c good oid hgood habs⟩⟩

/-- Witness of the amended C2: the sample task is stored; "not-an-id" is
malformed, `otherIdText` is well formed and matches nothing. -/
theorem malformed_id_500_absent_id_404_witness :
    ObjectId.parse "not-an-id" = none ∧
    ObjectId.parse otherIdText = some otherId ∧
    findOne [sampleTask] otherId = none ∧
    ((getTaskById [sampleTask] "not-an-id"
        = (⟨500, .obj [("error", .str objectIdErrorMessage)]⟩, [sampleTask]) ∧
      putTask [sampleTask] "not-an-id" [] 9
        = (⟨500, .obj [("error", .str objectIdErrorMessage)]⟩, [sampleTask]) ∧
      deleteTask [sampleTask] "not-an-id"
        = (⟨500, .obj [("error", .str objectIdErrorMessage)]⟩, [sampleTask])) ∧
    (getTaskById [sampleTask] otherIdText
        = (⟨404, .obj [("error", .str "Task not found")]⟩, [sampleTask]) ∧
      putTask [sampleTask] otherIdText [] 9
        = (⟨404, .obj [("error", .str "Task not found")]⟩, [sampleTask]) ∧
      deleteTask [sampleTask] otherIdText
        = (⟨404, .obj [("error", .str "Task not found")]⟩, [sampleTask]))) :=
  ⟨by decide, by decide, by decide,
    malformed_id_500_absent_id_404 [sampleTask] "not-an-id" otherIdText otherId [] 9
      (by decide) (by decide) (by decide)⟩

/-- Counterexample to C8 as stated: no task has the identifier "not-an-id",
neither in the empty collection nor next to the sample task, and the delete
handler answers it with status 500, not with the 404 of the claim. -/
theorem delete_of_malformed_id_is_answered_500 :
    ObjectId.parse "not-an-id" = none ∧
    (deleteTask [] "not-an-id").1.status = 500 ∧
    (deleteTask [] "not-an-id").1 ≠ ⟨404, .obj [("error", .str "Task not found")]⟩ ∧
    (deleteTask [sampleTask] "not-an-id").1.status = 500 ∧
    (deleteTask [sampleTask] "not-an-id").2 = [sampleTask] := by
  decide

/-- C8, amended: delete removes exactly the addressed task, for a well-formed
identifier.  In a collection whose identifiers are unique, deleting the
well-formed identifier of a stored task is answered 200 with "Task deleted
successfully", the collection left is the old one without that task, and
get-by-id on it answers 404; deleting a well-formed identifier that matches no
task is answered 404, leaves the collection as it was, and get-by-id answers 404
as well; deleting an id string that is no well-formed identifier is answered 500
and leaves the collection as it was. -/
theorem delete_removes_exactly_the_task
    (c c2 : Collection) (id bad : String) (oid : ObjectId) (d : Doc)
    (hid : ObjectId.parse id = some oid)
    (hbad : ObjectId.parse bad = none)
    (huniq : uniqueIds c)
    (hpresent : findOne c oid = some d)
    (habsent : findOne c2 oid = none) :
    (deleteTask c id
        = (⟨200, .obj [("message", .str "Task deleted successfully")]⟩, c.erase d) ∧
      d ∈ c ∧ (c.erase d).length + 1 = c.length ∧
      (getTaskById (deleteTask c id).2 id).1
        = ⟨404, .obj [("error", .str "Task not found")]⟩) ∧
    (deleteTask c2 id = (⟨404, .obj [("error", .str "Task not found")]⟩, c2) ∧
      (getTaskById (deleteTask c2 id).2 id).1
        = ⟨404, .obj [("error", .str "Task not found")]⟩) ∧
    deleteTask c bad = (⟨500, .obj [("error", .str objectIdErrorMessage)]⟩, c) := by
  have hd := deleteTask_of_present c id oid d hid hpresent
  have hmem := mem_of_findOne c oid d hpresent
  have ha := deleteTask_of_absent c2 id oid hid habsent
  refine ⟨⟨hd, hmem, ?_, ?_⟩, ⟨ha, ?_⟩, deleteTask_of_malformed c bad hbad⟩
  · rw [List.length_erase_of_mem hmem]
    have : 0 < c.length := List.length_pos_of_mem hmem
    omega
  · rw [hd]
    simp only
    rw [getTaskById_of_absent _ id oid hid (findOne_erase_of_unique c oid d huniq hpresent)]
    rfl
  · rw [ha]
    simp only
    rw [getTaskById_of_absent _ id oid hid habsent]
    rfl

/-- Witness of the amended C8: two stored tasks, the first is deleted; in a
collection with the second only, the first identifier matches nothing;
"not-an-id" is malformed. -/
theorem delete_removes_exactly_the_task_witness :
    ObjectId.parse sampleIdText = some sampleId ∧
    ObjectId.parse "not-an-id" = none ∧
    uniqueIds [sampleTask, otherTask] ∧
    findOne [sampleTask, otherTask] sampleId = some sampleTask ∧
    findOne [otherTask] sampleId = none ∧
    ((deleteTask [sampleTask, otherTask] sampleIdText
        = (⟨200, .obj [("message", .str "Task deleted successfully")]⟩,
            [sampleTask, otherTask].erase sampleTask) ∧
      sampleTask ∈ [sampleTask, otherTask] ∧
      ([sampleTask, otherTask].erase sampleTask).length + 1
        = [sampleTask, otherTask].length ∧
      (getTaskById (deleteTask [sampleTask, otherTask] sampleIdText).2 sampleIdText).1
        = ⟨404, .obj [("error", .str "Task not found")]⟩) ∧
    (deleteTask [otherTask] sampleIdText
        = (⟨404, .obj [("error", .str "Task not found")]⟩, [otherTask]) ∧
      (getTaskById (deleteTask [otherTask] sampleIdText).2 sampleIdText).1
        = ⟨404, .obj [("error", .str "Task not found")]⟩) ∧
    deleteTask [sampleTask, otherTask] "not-an-id"
      = (⟨500, .obj [("error", .str objectIdErrorMessage)]⟩, [sampleTask, otherTask])) :=
  ⟨by decide, by decide, by unfold uniqueIds; decide, by decide, by decide,
    delete_removes_exactly_the_task [sampleTask, otherTask] [otherTask] sampleIdText
      "not-an-id" sampleId sampleTask (by decide) (by decide) (by unfold uniqueIds; decide)
      (by decide) (by decide)⟩

/-! ## Claims about creation -/

/-- Counterexample to C1 as stated: a body without title and a body whose title
is the empty string are each answered 201, and the collection, empty before the
request, holds a task after it. -/
theorem create_without_title_is_accepted :
    (postTask [] [] sampleId 3).1.status = 201 ∧
    (postTask [] [] sampleId 3).2 ≠ [] ∧
    (postTask [] [("title", .str "")] sampleId 3).1.status = 201 ∧
    (postTask [] [("title", .str "")] sampleId 3).2 ≠ [] := by
  decide

/-- C1, amended: the create handler does not validate the title.  Every request
body, also one whose title is absent or empty, is answered 201, and the
collection after the request is the collection before it followed by one new
task, whose title is the supplied title, or null when the body has none. -/
theorem create_accepts_every_body
    (c : Collection) (body : Doc) (insertedId : ObjectId) (now : Nat) :
    (postTask c body insertedId now).1.status = 201 ∧
    ∃ doc : Doc,
      (postTask c body insertedId now).2 = c ++ [doc] ∧
      getField doc "_id" = some (.oid insertedId) ∧
      getField doc "title" = some ((getField body "title").getD .null) :=
  ⟨rfl, createdDoc body insertedId now, rfl, by simp [createdDoc, getField],
    by simp [createdDoc, newTask, getField]⟩

/-- C4: creation applies the documented defaults.  A request body that supplies
a text as title and omits `description`, `priority`, `tags` and `due_date` is
answered 201 with a task that has the supplied title, description "", priority
"medium", completed false, tags empty, due date null, `created_at` set and no
`updated_at`; the persisted document is this same task. -/
theorem create_applies_defaults
    (c : Collection) (body : Doc) (title : String) (insertedId : ObjectId) (now : Nat)
    (htitle : getField body "title" = some (.str title))
    (hnonempty : title ≠ "")
    (hdescription : getField body "description" = none)
    (hpriority : getField body "priority" = none)
    (htags : getField body "tags" = none)
    (hdue : getField body "due_date" = none) :
    ∃ task : Doc,
      task = [("_id", .oid insertedId), ("title", .str title), ("description", .str ""),
              ("priority", .str "medium"), ("completed", .bool false), ("tags", .arr []),
              ("due_date", .null), ("created_at", .date now)] ∧
      getField task "updated_at" = none ∧
      postTask c body insertedId now = (⟨201, .obj task⟩, c ++ [task]) := by
  have _ := hnonempty
  refine ⟨_, rfl, by simp [getField], ?_⟩
  simp [postTask, newTask, insertOne, definedFields, jsOr, htitle, hdescription, hpriority,
    htags, hdue]

/-- Witness of C4: the body with the title "Buy milk" alone. -/
theorem create_applies_defaults_witness :
    getField [("title", .str "Buy milk")] "title" = some (.str "Buy milk") ∧
    "Buy milk" ≠ "" ∧
    getField [("title", .str "Buy milk")] "description" = none ∧
    getField [("title", .str "Buy milk")] "priority" = none ∧
    getField [("title", .str "Buy milk")] "tags" = none ∧
    getField [("title", .str "Buy milk")] "due_date" = none ∧
    ∃ task : Doc,
      task = [("_id", .oid sampleId), ("title", .str "Buy milk"), ("description", .str ""),
              ("priority", .str "medium"), ("completed", .bool false), ("tags", .arr []),
              ("due_date", .null), ("created_at", .date 3)] ∧
      getField task "updated_at" = none ∧
      postTask [] [("title", .str "Buy milk")] sampleId 3 = (⟨201, .obj task⟩, [] ++ [task]) :=
  ⟨by decide, by decide, by decide, by decide, by decide, by decide,
    create_applies_defaults [] [("title", .str "Buy milk")] "Buy milk" sampleId 3
      (by decide) (by decide) (by decide) (by decide) (by decide) (by decide)⟩

/-! ## The priority invariant -/

theorem mem_deleteOne (c : Collection) (id : ObjectId) (x : Doc) :
    x ∈ (deleteOne c id).2 → x ∈ c := by
  induction c with
  | nil => intro hx; simp [deleteOne] at hx
  | cons y rest ih =>
    intro hx
    by_cases hy : hasId id y = true
    · simp only [deleteOne, hy, if_true] at hx
      exact List.mem_cons_of_mem _ hx
    · simp only [deleteOne, hy, Bool.false_eq_true, if_false, List.mem_cons] at hx
      rcases hx with hx | hx
      · exact hx ▸ List.mem_cons_self _ _
      · exact List.mem_cons_of_mem _ (ih hx)

theorem mem_putTask (c : Collection) (id : String) (body : Doc) (now : Nat) (x : Doc)
    (hx : x ∈ (putTask c id body now).2) :
    x ∈ c ∨ ∃ d ∈ c, x = updatedDoc d body now := by
  unfold putTask at hx
  cases hp : ObjectId.parse id with
  | none =>
    simp only [hp] at hx
    exact Or.inl hx
  | some oid =>
    simp only [hp] at hx
    have hmem := mem_findOneAndUpdate c oid (updateData body now) x
    rcases hres : findOneAndUpdate c oid (updateData body now) with ⟨r, c2⟩
    rw [hres] at hx hmem
    have hx2 : x ∈ c2 := by
      cases r <;> exact hx
    rcases hmem hx2 with h | ⟨d, hd, _, he⟩
    · exact Or.inl h
    · exact Or.inr ⟨d, hd, he⟩

theorem mem_deleteTask (c : Collection) (id : String) (x : Doc)
    (hx : x ∈ (deleteTask c id).2) : x ∈ c := by
  unfold deleteTask at hx
  cases hp : ObjectId.parse id with
  | none =>
    simp only [hp] at hx
    exact hx
  | some oid =>
    simp only [hp] at hx
    apply mem_deleteOne c oid x
    by_cases h0 : (deleteOne c oid).1 = 0
    · simpa [h0] using hx
    · simpa [h0] using hx

/-- Counterexample to C6 as stated: the empty collection satisfies the
invariant; a create request with priority "urgent" persists a task with that
priority, and an update with priority "urgent" rewrites the stored sample task
to it. -/
theorem unlisted_priority_is_persisted :
    (∀ d ∈ ([] : Collection), priorityOk d = true) ∧
    ¬ (∀ d ∈ (postTask [] [("title", .str "x"), ("priority", .str "urgent")] sampleId 3).2,
        priorityOk d = true) ∧
    (∀ d ∈ [sampleTask], priorityOk d = true) ∧
    ¬ (∀ d ∈ (putTask [sampleTask] sampleIdText [("priority", .str "urgent")] 9).2,
        priorityOk d = true) := by
  decide

/-- C6, amended: the priority invariant is preserved by the requests that
respect it.  Starting from a collection in which every task has priority low,
medium or high, after a create or an update request whose body omits `priority`
or supplies one of low, medium, high, and after any delete request, every
persisted task still has priority low, medium or high. -/
theorem priority_invariant_preserved_for_listed_priority
    (c : Collection) (id : String) (body : Doc) (insertedId : ObjectId) (now : Nat)
    (hinv : ∀ d ∈ c, priorityOk d = true)
    (hbody : getField body "priority" = none ∨
      getField body "priority" = some (.str "low") ∨
      getField body "priority" = some (.str "medium") ∨
      getField body "priority" = some (.str "high")) :
    (∀ d ∈ (postTask c body insertedId now).2, priorityOk d = true) ∧
    (∀ d ∈ (putTask c id body now).2, priorityOk d = true) ∧
    (∀ d ∈ (deleteTask c id).2, priorityOk d = true) := by
  refine ⟨?_, ?_, ?_⟩
  · intro d hd
    rw [postTask_collection, List.mem_append, List.mem_singleton] at hd
    rcases hd with hd | hd
    · exact hinv d hd
    · subst hd
      rcases hbody with h | h | h | h <;>
        simp [priorityOk, createdDoc, newTask, getField, jsOr, truthy, h]
  · intro d hd
    rcases mem_putTask c id body now d hd with h | ⟨old, hold, he⟩
    · exact hinv d h
    · subst he
      have ho := hinv old hold
      unfold priorityOk at ho ⊢
      rw [getField_updatedDoc]
      rcases hbody with h | h | h | h
      · simpa [updatableFields, h] using ho
      · simp [updatableFields, h]
      · simp [updatableFields, h]
      · simp [updatableFields, h]
  · intro d hd
    exact hinv d (mem_deleteTask c id d hd)

/-- Witness of the amended C6: two stored tasks, a request body with priority
"high". -/
theorem priority_invariant_preserved_for_listed_priority_witness :
    (∀ d ∈ [sampleTask, otherTask], priorityOk d = true) ∧
    (getField [("title", .str "x"), ("priority", .str "high")] "priority" = none ∨
      getField [("title", .str "x"), ("priority", .str "high")] "priority"
        = some (.str "low") ∨
      getField [("title", .str "x"), ("priority", .str "high")] "priority"
        = some (.str "medium") ∨
      getField [("title", .str "x"), ("priority", .str "high")] "priority"
        = some (.str "high")) ∧
    ((∀ d ∈ (postTask [sampleTask, otherTask]
          [("title", .str "x"), ("priority", .str "high")] ⟨2⟩ 9).2, priorityOk d = true) ∧
    (∀ d ∈ (putTask [sampleTask, otherTask] sampleIdText
          [("title", .str "x"), ("priority", .str "high")] 9).2, priorityOk d = true) ∧
    (∀ d ∈ (deleteTask [sampleTask, otherTask] sampleIdText).2, priorityOk d = true)) :=
  ⟨by decide, by decide,
    priority_invariant_preserved_for_listed_priority [sampleTask, otherTask] sampleIdText
      [("title", .str "x"), ("priority", .str "high")] ⟨2⟩ 9 (by decide) (by decide)⟩

/-! ## Listing -/

theorem perm_insertSorted (before : Doc → Doc → Bool) (x : Doc) (l : List Doc) :
    (insertSorted before x l).Perm (x :: l) := by
  induction l with
  | nil => exact List.Perm.refl _
  | cons y ys ih =>
    by_cases h : before x y = true
    · simp [insertSorted, h]
    · simp only [insertSorted, h, Bool.false_eq_true, if_false]
      exact (List.Perm.cons y ih).trans (List.Perm.swap x y ys)

theorem perm_sortDocs (before : Doc → Doc → Bool) (l : List Doc) :
    (sortDocs before l).Perm l := by
  induction l with
  | nil => exact List.Perm.refl _
  | cons x xs ih =>
    exact (perm_insertSorted before x (sortDocs before xs)).trans (List.Perm.cons x ih)

theorem createdAtDesc_of_dated (a b : Doc)
    (ha : isDate (getField a "created_at") = true)
    (hb : isDate (getField b "created_at") = true) :
    createdAtDesc a b = true ↔ createdMs b ≤ createdMs a := by
  unfold createdAtDesc createdMs
  cases hga : getField a "created_at" with
  | none => simp [hga, isDate] at ha
  | some va =>
    cases hgb : getField b "created_at" with
    | none => simp [hgb, isDate] at hb
    | some vb =>
      cases va <;> simp [hga, isDate] at ha
      cases vb <;> simp [hgb, isDate] at hb
      simp [bsonLe, bsonRank]

theorem pairwise_insertSorted (x : Doc) (l : List Doc)
    (hx : isDate (getField x "created_at") = true)
    (hl : ∀ y ∈ l, isDate (getField y "created_at") = true)
    (hs : l.Pairwise fun a b => createdMs b ≤ createdMs a) :
    (insertSorted createdAtDesc x l).Pairwise fun a b => createdMs b ≤ createdMs a := by
  induction l with
  | nil => simp [insertSorted]
  | cons y ys ih =>
    have hy := hl y (List.mem_cons_self _ _)
    have hys : ∀ z ∈ ys, isDate (getField z "created_at") = true :=
      fun z hz => hl z (List.mem_cons_of_mem _ hz)
    obtain ⟨hyall, hstail⟩ := List.pairwise_cons.mp hs
    by_cases h : createdAtDesc x y = true
    · have hxy := (createdAtDesc_of_dated x y hx hy).mp h
      simp only [insertSorted, h, if_true]
      refine List.pairwise_cons.mpr ⟨?_, hs⟩
      intro z hz
      rcases List.mem_cons.mp hz with e | hz2
      · rw [e]; exact hxy
      · exact le_trans (hyall z hz2) hxy
    · have hxy : ¬ createdMs y ≤ createdMs x :=
        fun hle => h ((createdAtDesc_of_dated x y hx hy).mpr hle)
      simp only [insertSorted, h, Bool.false_eq_true, if_false]
      refine List.pairwise_cons.mpr ⟨?_, ih hys hstail⟩
      intro z hz
      rcases List.mem_cons.mp ((perm_insertSorted createdAtDesc x ys).mem_iff.mp hz) with e | hz2
      · rw [e]; omega
      · exact hyall z hz2

theorem pairwise_sortDocs (l : List Doc)
    (hl : ∀ y ∈ l, isDate (getField y "created_at") = true) :
    (sortDocs createdAtDesc l).Pairwise fun a b => createdMs b ≤ createdMs a := by
  induction l with
  | nil => simp [sortDocs]
  | cons x xs ih =>
    have hxs : ∀ y ∈ xs, isDate (getField y "created_at") = true :=
      fun y hy => hl y (List.mem_cons_of_mem _ hy)
    refine pairwise_insertSorted x _ (hl x (List.mem_cons_self _ _)) ?_ (ih hxs)
    intro y hy
    exact hxs y ((perm_sortDocs createdAtDesc xs).mem_iff.mp hy)

theorem matchesEq_of_not_array (field : Option Value) (q : Value)
    (hq : q ≠ .null) (hf : isArray field = false) :
    matchesEq field q = decide (field = some q) := by
  cases field with
  | none => simp [matchesEq, hq]
  | some v =>
    rw [Bool.eq_iff_iff]
    cases v <;> first
      | (simp [isArray] at hf; done)
      | simp [matchesEq]

theorem boolText_eq_true (b : Bool) : (boolText b == "true") = b := by
  cases b <;> decide

theorem matchesFilter_eq_satisfiesFilter (priority : Option String) (completed : Option Bool)
    (d : Doc) (hpriority : priority ≠ some "")
    (hd : listableFor priority completed d = true) :
    matchesFilter (listFilter priority (completed.map boolText)) d
      = satisfiesFilter priority completed d := by
  have hpm : ∀ p : String, isArray (getField d "priority") = false →
      matchesEq (getField d "priority") (.str p)
        = decide (getField d "priority" = some (.str p)) :=
    fun p hp => matchesEq_of_not_array (getField d "priority") (.str p) (by simp) hp
  have hcm : ∀ b : Bool, isArray (getField d "completed") = false →
      matchesEq (getField d "completed") (.bool b)
        = decide (getField d "completed" = some (.bool b)) :=
    fun b hc => matchesEq_of_not_array (getField d "completed") (.bool b) (by simp) hc
  cases priority with
  | none =>
    cases completed with
    | none => simp [listFilter, matchesFilter, satisfiesFilter]
    | some b =>
      simp only [listableFor, Option.isNone_some, Option.isNone_none, Bool.true_or,
        Bool.false_or, Bool.and_true, Bool.and_eq_true, Bool.not_eq_true'] at hd
      simp [listFilter, matchesFilter, satisfiesFilter, setField, boolText_eq_true,
        hcm b hd.2]
  | some p =>
    have hne : p ≠ "" := fun e => hpriority (by rw [e])
    cases completed with
    | none =>
      simp only [listableFor, Option.isNone_some, Option.isNone_none, Bool.true_or,
        Bool.false_or, Bool.and_true, Bool.and_eq_true, Bool.not_eq_true'] at hd
      simp [listFilter, matchesFilter, satisfiesFilter, setField, hne, hpm p hd.2]
    | some b =>
      simp only [listableFor, Option.isNone_some, Bool.false_or, Bool.and_eq_true,
        Bool.not_eq_true'] at hd
      simp [listFilter, matchesFilter, satisfiesFilter, setField, hne, boolText_eq_true,
        hpm p hd.1.2, hcm b hd.2]

theorem isDate_of_listableFor (priority : Option String) (completed : Option Bool) (d : Doc)
    (hd : listableFor priority completed d = true) :
    isDate (getField d "created_at") = true := by
  simp only [listableFor, Bool.and_eq_true] at hd
  exact hd.1.1

/-- Counterexample to C5 as stated: a create request whose priority is the
array of "high" and "low" is answered 201 on the empty collection; in the
collection it leaves, no task has priority equal to "high", yet the list handler
asked for priority "high" returns the stored task. -/
theorem list_returns_task_with_array_priority :
    (postTask [] arrayPriorityBody sampleId 3).1.status = 201 ∧
    (postTask [] arrayPriorityBody sampleId 3).2 = [arrayPriorityTask] ∧
    getField arrayPriorityTask "priority" ≠ some (.str "high") ∧
    [arrayPriorityTask].filter (satisfiesFilter (some "high") none) = [] ∧
    getTasks [arrayPriorityTask] (some "high") none
      = (⟨200, .arr [.obj arrayPriorityTask]⟩, [arrayPriorityTask]) := by
  decide

/-- C5, amended: list-with-filter returns exactly the matching tasks, newest
first, in every collection whose tasks have a date as `created_at` and no array
under a field the filter constrains.  For such a collection and a filter made
of an optional non-empty priority and an optional boolean for `completed`, the
list handler answers 200 with an array that holds exactly the stored tasks
satisfying every supplied constraint (all tasks when none is supplied), in
descending order of `created_at`, and leaves the collection as it was; when no
task matches, and so for an empty collection, the array is empty. -/
theorem list_returns_matching_tasks_newest_first
    (c : Collection) (priority : Option String) (completed : Option Bool)
    (hpriority : priority ≠ some "")
    (htasks : ∀ d ∈ c, listableFor priority completed d = true) :
    ∃ tasks : List Doc,
      getTasks c priority (completed.map boolText)
        = (⟨200, .arr (tasks.map Value.obj)⟩, c) ∧
      tasks.Perm (c.filter (satisfiesFilter priority completed)) ∧
      tasks.Pairwise (fun a b => createdMs b ≤ createdMs a) ∧
      ((∀ d ∈ c, satisfiesFilter priority completed d = false) → tasks = []) := by
  have hfind : find c (listFilter priority (completed.map boolText))
      = c.filter (satisfiesFilter priority completed) := by
    unfold find
    apply List.filter_congr
    intro d hd
    exact matchesFilter_eq_satisfiesFilter priority completed d hpriority (htasks d hd)
  have hperm := perm_sortDocs createdAtDesc (c.filter (satisfiesFilter priority completed))
  refine ⟨sortDocs createdAtDesc (c.filter (satisfiesFilter priority completed)), ?_, hperm,
    ?_, ?_⟩
  · unfold getTasks
    rw [hfind]
  · apply pairwise_sortDocs
    intro y hy
    exact isDate_of_listableFor priority completed y (htasks y (List.mem_filter.mp hy).1)
  · intro hnone
    have hempty : c.filter (satisfiesFilter priority completed) = [] := by
      rw [List.filter_eq_nil_iff]
      intro d hd
      simp [hnone d hd]
    rw [hempty]
    rfl

/-- Witness of the amended C5: two stored tasks, listed with priority high and
completed true. -/
theorem list_returns_matching_tasks_newest_first_witness :
    (some "high" : Option String) ≠ some "" ∧
    (∀ d ∈ [sampleTask, otherTask], listableFor (some "high") (some true) d = true) ∧
    ∃ tasks : List Doc,
      getTasks [sampleTask, otherTask] (some "high") ((some true).map boolText)
        = (⟨200, .arr (tasks.map Value.obj)⟩, [sampleTask, otherTask]) ∧
      tasks.Perm ([sampleTask, otherTask].filter (satisfiesFilter (some "high") (some true))) ∧
      tasks.Pairwise (fun a b => createdMs b ≤ createdMs a) ∧
      ((∀ d ∈ [sampleTask, otherTask], satisfiesFilter (some "high") (some true) d = false) →
        tasks = []) :=
  ⟨by decide, by decide,
    list_returns_matching_tasks_newest_first [sampleTask, otherTask] (some "high") (some true)
      (by decide) (by decide)⟩

/-- A task whose priority is an array is still listed as the claim words it
when the filter puts no constraint on priority. -/
theorem getTasks_ignores_unconstrained_array :
    listableFor none (some false) arrayPriorityTask = true ∧
    getTasks [arrayPriorityTask, otherTask] none (some "false")
      = (⟨200, .arr [.obj arrayPriorityTask]⟩, [arrayPriorityTask, otherTask]) := by
  decide

/-- The two sample tasks are listed newest first; the filter on priority keeps
the one of high priority; an empty collection lists as the empty array. -/
theorem getTasks_on_samples :
    getTasks [sampleTask, otherTask] none none
      = (⟨200, .arr [.obj otherTask, .obj sampleTask]⟩, [sampleTask, otherTask]) ∧
    getTasks [sampleTask, otherTask] (some "high") none
      = (⟨200, .arr [.obj otherTask]⟩, [sampleTask, otherTask]) ∧
    getTasks [sampleTask, otherTask] none (some "false")
      = (⟨200, .arr [.obj sampleTask]⟩, [sampleTask, otherTask]) ∧
    getTasks [] (some "high") (some "true") = (⟨200, .arr []⟩, []) := by
  decide

/-- Every handler leaves a date under `created_at` in every stored document,
whatever the request body: the field read by the sort of the list handler is a
date in every collection the handlers build from the empty one. -/
theorem created_at_stays_a_date
    (c : Collection) (id : String) (body : Doc) (insertedId : ObjectId) (now : Nat)
    (hinv : ∀ d ∈ c, isDate (getField d "created_at") = true) :
    (∀ d ∈ (postTask c body insertedId now).2, isDate (getField d "created_at") = true) ∧
    (∀ d ∈ (putTask c id body now).2, isDate (getField d "created_at") = true) ∧
    (∀ d ∈ (deleteTask c id).2, isDate (getField d "created_at") = true) := by
  refine ⟨?_, ?_, ?_⟩
  · intro d hd
    rw [postTask_collection, List.mem_append, List.mem_singleton] at hd
    rcases hd with hd | hd
    · exact hinv d hd
    · subst hd
      simp [createdDoc, newTask, getField, isDate]
  · intro d hd
    rcases mem_putTask c id body now d hd with h | ⟨old, hold, he⟩
    · exact hinv d h
    · subst he
      rw [getField_updatedDoc]
      simpa [updatableFields] using hinv old hold
  · intro d hd
    exact hinv d (mem_deleteTask c id d hd)

end Todo
